import Mathlib

/-!
Verification of the dismissal-assignment resolution logic of the
school-attendance system (`app.py`, `dismissal_migration.py`).

The embedding models the three relevant tables as Lean lists:

* `students`          — one row per student, with the five weekly default
                        dismissal columns added by the migration;
* `daily_dismissal`   — the admin planner table keyed by
                        (student_id, dismissal_date);
* `dismissal_today`   — the separate working table written by
                        POST/DELETE `/api/dismissal/today`.

SQL `NULL` is `Option.none`; text columns are `String`.  Timestamp columns
(`recorded_at`, `updated_at`) are not modelled — no claim mentions them.
Route handlers become pure functions from a database state and a request to
a new state and an `Except`-style HTTP outcome; the read-only view handler
additionally returns, in order, the list of store queries it issued before
producing its outcome (needed to reason about *when* a request is rejected).
-/

deriving instance DecidableEq for Except

namespace SchoolDismissal

/-- A row of the `students` table (the columns the dismissal logic reads):
identity, name, grade, status, and the five weekly default dismissal
columns `dismissal_mon` … `dismissal_fri` added by `run_migration`. -/
structure Student where
  student_id    : Nat
  first_name    : String
  last_name     : String
  grade         : Option String
  status        : String
  dismissal_mon : Option String
  dismissal_tue : Option String
  dismissal_wed : Option String
  dismissal_thu : Option String
  dismissal_fri : Option String
  deriving Repr, DecidableEq

/-- A row of the `daily_dismissal` table (the admin planner store),
UNIQUE(student_id, dismissal_date). -/
structure DailyDismissal where
  student_id     : Nat
  dismissal_date : String
  dismissal_type : String
  destination    : Option String
  notes          : Option String
  is_override    : Option Nat
  deriving Repr, DecidableEq

/-- A row of the `dismissal_today` table (the working table written by the
POST/DELETE `/api/dismissal/today` handlers), UNIQUE(student_id, plan_date). -/
structure DismissalToday where
  student_id    : Nat
  plan_date     : String
  bus_route     : Option String
  activity      : Option String
  ends_in       : Option String
  elective_name : Option String
  notes         : Option String
  deriving Repr, DecidableEq

/-- The database state seen by the dismissal subsystem. -/
structure DB where
  students        : List Student
  daily_dismissal : List DailyDismissal
  dismissal_today : List DismissalToday
  deriving Repr, DecidableEq

/-! ### Dates: `date.fromisoformat` and `strftime('%A')` -/

/-- A parsed calendar date (Python `datetime.date`). -/
structure PyDate where
  year  : Nat
  month : Nat
  day   : Nat
  deriving Repr, DecidableEq

/-- Gregorian leap-year test. -/
def isLeap (y : Nat) : Bool :=
  y % 4 == 0 && (y % 100 != 0 || y % 400 == 0)

/-- Days in a month of a given year. -/
def daysInMonth (y m : Nat) : Nat :=
  if m == 2 then (if isLeap y then 29 else 28)
  else if m == 4 || m == 6 || m == 9 || m == 11 then 30
  else 31

def digitVal (c : Char) : Option Nat :=
  if c.isDigit then some (c.toNat - 48) else none

/-- Python `date.fromisoformat`: accepts exactly `YYYY-MM-DD` with a valid
calendar date, otherwise raises `ValueError` (here: `none`). -/
def fromisoformat (s : String) : Option PyDate :=
  match s.toList with
  | [y1, y2, y3, y4, h1, m1, m2, h2, d1, d2] =>
    if h1 == '-' && h2 == '-' then
      match digitVal y1, digitVal y2, digitVal y3, digitVal y4,
            digitVal m1, digitVal m2, digitVal d1, digitVal d2 with
      | some a, some b, some c, some d, some e, some f, some g, some h =>
        let y := ((a * 10 + b) * 10 + c) * 10 + d
        let m := e * 10 + f
        let dy := g * 10 + h
        if 1 ≤ m && m ≤ 12 && 1 ≤ dy && dy ≤ daysInMonth y m then
          some ⟨y, m, dy⟩
        else none
      | _, _, _, _, _, _, _, _ => none
    else none
  | _ => none

/-- Day-of-week by Zeller's congruence: 0 = Saturday, 1 = Sunday, …,
6 = Friday. -/
def zeller (y m d : Nat) : Nat :=
  let y' := if m < 3 then y - 1 else y
  let m' := if m < 3 then m + 12 else m
  let K := y' % 100
  let J := y' / 100
  (d + (13 * (m' + 1)) / 5 + K + K / 4 + J / 4 + 5 * J) % 7

/-- Python `d.strftime('%A')`: the English weekday name. -/
def weekdayName (dt : PyDate) : String :=
  match zeller dt.year dt.month dt.day with
  | 0 => "Saturday"
  | 1 => "Sunday"
  | 2 => "Monday"
  | 3 => "Tuesday"
  | 4 => "Wednesday"
  | 5 => "Thursday"
  | _ => "Friday"

/-! ### Elective / ends-in rule evaluator (`calc_ends_in` in `get_dismissal_today`) -/

/-- Python `str.strip()`: drop leading and trailing whitespace (structural
model of the library function, so it computes by kernel reduction). -/
def pyStrip (s : String) : String :=
  ⟨((s.data.dropWhile Char.isWhitespace).reverse.dropWhile Char.isWhitespace).reverse⟩

def LOWER_SCHOOL : List String := ["1", "2", "3", "4"]

def MIDDLE_SCHOOL : List String := ["5", "6", "7", "8"]

/-- `calc_ends_in` from `get_dismissal_today`: `g = str(grade or '').strip()`
then the four-rule first-match-wins table.  A SQL NULL grade is `none`. -/
def calc_ends_in (grade : Option String) (day_name : String) : String × Option String :=
  let g := pyStrip (grade.getD "")
  if LOWER_SCHOOL.contains g && day_name == "Tuesday" then ("elective", some "Elective")
  else if MIDDLE_SCHOOL.contains g && day_name == "Tuesday" then ("elective", some "Advisory")
  else if MIDDLE_SCHOOL.contains g && day_name == "Thursday" then ("elective", some "Elective")
  else ("homeroom", none)

/-- The rule table exactly as the specification states it (§4.2), for
comparison with `calc_ends_in`: grade compared as a normalized (trimmed,
blank-for-missing) string, fixed precedence, first match wins, with the
final catch-all giving ("homeroom", null). -/
def spec_ends_in_rules (grade : Option String) (weekday : String) : String × Option String :=
  let g := pyStrip (grade.getD "")
  if (g == "1" || g == "2" || g == "3" || g == "4") && weekday == "Tuesday" then
    ("elective", some "Elective")
  else if (g == "5" || g == "6" || g == "7" || g == "8") && weekday == "Tuesday" then
    ("elective", some "Advisory")
  else if (g == "5" || g == "6" || g == "7" || g == "8") && weekday == "Thursday" then
    ("elective", some "Elective")
  else ("homeroom", none)

/-! ### Default resolver (the `day_col_map` lookup in the default branch) -/

/-- `day_col_map.get(day_name, 'dismissal_mon')` followed by reading that
column of a student row: the per-day default used when no plan exists.
Note the source's fallback — any name outside Monday…Friday (in particular
Saturday and Sunday) selects `dismissal_mon`. -/
def dayCol (day_name : String) (s : Student) : Option String :=
  if day_name == "Monday" then s.dismissal_mon
  else if day_name == "Tuesday" then s.dismissal_tue
  else if day_name == "Wednesday" then s.dismissal_wed
  else if day_name == "Thursday" then s.dismissal_thu
  else if day_name == "Friday" then s.dismissal_fri
  else s.dismissal_mon

/-- The Default Resolver: a student's weekly default for the target date,
as the default branch of `get_dismissal_today` computes it. -/
def resolve_default (dt : PyDate) (s : Student) : Option String :=
  dayCol (weekdayName dt) s

/-! ### The dismissal view builder (`GET /api/dismissal/today`) -/

/-- One element of the `students` array in the view response. -/
structure ViewRow where
  id        : Nat
  firstName : String
  lastName  : String
  grade     : Option String
  dismissal : Option String
  activity  : Option String
  endsIn    : String
  elective  : Option String
  notes     : Option String
  name      : String
  deriving Repr, DecidableEq

/-- The JSON envelope of the view response. -/
structure ViewResponse where
  date     : String
  source   : String
  day      : String
  students : List ViewRow
  deriving Repr, DecidableEq

/-- HTTP-level failures of the modelled handlers. -/
inductive HttpError where
  /-- a 400 returned explicitly by the handler -/
  | badRequest : HttpError
  /-- an uncaught `ValueError` from `date.fromisoformat` (a 500) -/
  | valueError : HttpError
  deriving Repr, DecidableEq

/-- The store reads `get_dismissal_today` can issue, in the order the
handler executes them. -/
inductive StoreQuery where
  /-- `SELECT COUNT(*) FROM daily_dismissal WHERE dismissal_date = ?` -/
  | countDaily (date : String) : StoreQuery
  /-- the left-join of active students against `daily_dismissal` -/
  | joinDaily (date : String) (grade : Option String) : StoreQuery
  /-- the default-branch read of active students' weekly default column -/
  | studentDefaults (grade : Option String) : StoreQuery
  deriving Repr, DecidableEq

/-- SQL `s.grade = ?` guarded by Python truthiness of the filter: no
filter, or an empty-string filter, matches everyone; otherwise the
student's grade must equal the filter (NULL grade never matches). -/
def gradeMatch (grade_filter : Option String) (s : Student) : Bool :=
  match grade_filter with
  | none => true
  | some g => if g == "" then true else s.grade == some g

/-- Lexicographic order on character lists by codepoint — for UTF-8 this
is exactly SQLite's BINARY (memcmp) collation. -/
def charListLt : List Char → List Char → Bool
  | [], [] => false
  | [], _ :: _ => true
  | _ :: _, [] => false
  | a :: as, b :: bs =>
    if a.toNat < b.toNat then true
    else if a.toNat == b.toNat then charListLt as bs
    else false

def strLt (a b : String) : Bool := charListLt a.data b.data

/-- `ORDER BY last_name, first_name` comparison (SQLite BINARY collation). -/
def rowLe (a b : Student) : Bool :=
  strLt a.last_name b.last_name ||
    (a.last_name == b.last_name && (strLt a.first_name b.first_name || a.first_name == b.first_name))

def insertSorted (a : Student) : List Student → List Student
  | [] => [a]
  | b :: l => if rowLe a b then a :: b :: l else b :: insertSorted a l

/-- Insertion sort realising `ORDER BY last_name, first_name`. -/
def sortStudents : List Student → List Student
  | [] => []
  | a :: l => insertSorted a (sortStudents l)

/-- A row of the today-branch left join: the student's identity plus the
fields of their `daily_dismissal` record for the date, NULL when absent.
`endsIn`/`elective`/`name` hold the SQL placeholders, overwritten below. -/
def joinRow (s : Student) (rec : Option DailyDismissal) : ViewRow :=
  { id := s.student_id, firstName := s.first_name, lastName := s.last_name,
    grade := s.grade,
    dismissal := rec.map (·.dismissal_type),
    activity := rec.bind (·.destination),
    endsIn := "homeroom", elective := none,
    notes := rec.bind (·.notes),
    name := "" }

/-- A row of the default branch: the weekly default column as `dismissal`,
NULL activity and notes. -/
def defaultRow (day_name : String) (s : Student) : ViewRow :=
  { id := s.student_id, firstName := s.first_name, lastName := s.last_name,
    grade := s.grade,
    dismissal := dayCol day_name s,
    activity := none,
    endsIn := "homeroom", elective := none,
    notes := none,
    name := "" }

/-- The final Python loop: set `name` and overwrite `endsIn`/`elective`
from `calc_ends_in`. -/
def finalizeRow (day_name : String) (row : ViewRow) : ViewRow :=
  let p := calc_ends_in row.grade day_name
  { row with name := row.firstName ++ " " ++ row.lastName,
             endsIn := p.1, elective := p.2 }

/-- `GET /api/dismissal/today` (`get_dismissal_today`).  Returns the store
queries issued, in order, and the HTTP outcome.  `date_param` is the raw
query-string value (the server-side "today" default is the caller's
concern); `grade_filter` is the optional grade parameter.  Faithful
control flow: the `COUNT(*)` existence check runs first against the raw
string; the today branch runs its join before parsing the date (the parse
at the elective-schedule step), while the default branch parses before its
defaults query; an unparsable date raises at whichever parse comes first. -/
def get_dismissal_today (db : DB) (date_param : String) (grade_filter : Option String) :
    List StoreQuery × Except HttpError ViewResponse :=
  let filled := (db.daily_dismissal.filter (fun r => r.dismissal_date == date_param)).length
  if filled > 0 then
    let rows := (sortStudents (db.students.filter
        (fun s => s.status == "active" && gradeMatch grade_filter s))).map
      (fun s => joinRow s (db.daily_dismissal.find?
        (fun r => r.student_id == s.student_id && r.dismissal_date == date_param)))
    match fromisoformat date_param with
    | none => ([.countDaily date_param, .joinDaily date_param grade_filter], .error .valueError)
    | some dt =>
      let day_name := weekdayName dt
      ([.countDaily date_param, .joinDaily date_param grade_filter],
       .ok { date := date_param, source := "today", day := day_name,
             students := rows.map (finalizeRow day_name) })
  else
    match fromisoformat date_param with
    | none => ([.countDaily date_param], .error .valueError)
    | some dt =>
      let day_name := weekdayName dt
      let rows := (sortStudents (db.students.filter
          (fun s => s.status == "active" && gradeMatch grade_filter s))).map
        (defaultRow day_name)
      ([.countDaily date_param, .studentDefaults grade_filter],
       .ok { date := date_param, source := "default", day := day_name,
             students := rows.map (finalizeRow day_name) })

/-! ### `POST /api/dismissal/today` (`save_dismissal_today`) -/

/-- One element of the POSTed `records` array, as the handler reads it
with `rec.get(...)` (a JSON `null` or absent key is `none`; the handler's
own defaulting of `ends_in`/`notes` happens before these values reach the
SQL, so the fields here are the values bound into the INSERT). -/
structure TodayRecord where
  student_id    : Option Nat
  bus_route     : Option String
  activity      : Option String
  ends_in       : Option String
  elective_name : Option String
  notes         : Option String
  deriving Repr, DecidableEq

/-- The JSON body of the batch-save response. -/
structure SaveResp where
  saved  : Nat
  errors : List String
  deriving Repr, DecidableEq

/-- Python truthiness of the `student_id` field: `if not sid` rejects both
a missing/null id and the number 0. -/
def sidTruthy : Option Nat → Bool
  | none => false
  | some n => n != 0

/-- The row written into `dismissal_today` for one batch record. -/
def mkTodayRec (sid : Nat) (plan_date : String) (rec : TodayRecord) : DismissalToday :=
  { student_id := sid, plan_date := plan_date, bus_route := rec.bus_route,
    activity := rec.activity, ends_in := rec.ends_in,
    elective_name := rec.elective_name, notes := rec.notes }

/-- `ON CONFLICT(student_id, plan_date) DO UPDATE`: replace the non-key
fields of the matching row in place, otherwise append. -/
def upsert_today (l : List DismissalToday) (r : DismissalToday) : List DismissalToday :=
  if l.any (fun x => x.student_id == r.student_id && x.plan_date == r.plan_date) then
    l.map (fun x =>
      if x.student_id == r.student_id && x.plan_date == r.plan_date then
        { x with bus_route := r.bus_route, activity := r.activity,
                 ends_in := r.ends_in, elective_name := r.elective_name,
                 notes := r.notes }
      else x)
  else l ++ [r]

/-- The body of the batch loop: accumulate (table, saved, errors). -/
def todayStep (plan_date : String)
    (acc : List DismissalToday × Nat × List String) (rec : TodayRecord) :
    List DismissalToday × Nat × List String :=
  match rec.student_id with
  | some sid =>
    if sid == 0 then (acc.1, acc.2.1, acc.2.2 ++ ["Missing student_id in record"])
    else (upsert_today acc.1 (mkTodayRec sid plan_date rec), acc.2.1 + 1, acc.2.2)
  | none => (acc.1, acc.2.1, acc.2.2 ++ ["Missing student_id in record"])

/-- `POST /api/dismissal/today`: reject an empty batch with a 400, else
process every record independently, collecting per-record errors for
falsy `student_id`s and upserting the rest; reply with the saved count
and the error list. -/
def save_dismissal_today (db : DB) (plan_date : String) (records : List TodayRecord) :
    DB × Except HttpError SaveResp :=
  if records.isEmpty then (db, .error .badRequest)
  else
    let out := records.foldl (todayStep plan_date) (db.dismissal_today, 0, [])
    ({ db with dismissal_today := out.1 }, .ok { saved := out.2.1, errors := out.2.2 })

/-- `DELETE /api/dismissal/today`: require a truthy `date` query param,
then delete every `dismissal_today` row of that date. -/
def clear_dismissal_today (db : DB) (date : Option String) : DB × Except HttpError Unit :=
  match date with
  | none => (db, .error .badRequest)
  | some d =>
    if d == "" then (db, .error .badRequest)
    else ({ db with dismissal_today := db.dismissal_today.filter (fun r => !(r.plan_date == d)) },
          .ok ())

/-! ### `POST /api/dismissal/plan` (`save_dismissal_plan`) -/

/-- The JSON body of a single plan save, after the handler's `data.get`
defaulting (`destination`/`notes` default to `''`, `is_override` to 0,
but an explicit JSON `null` stays `none`). -/
structure PlanPayload where
  student_id     : Option Nat
  dismissal_date : Option String
  dismissal_type : Option String
  destination    : Option String
  notes          : Option String
  is_override    : Option Nat
  deriving Repr, DecidableEq

/-- The `(student_id, dismissal_date)` conflict key: does row `x` collide
with the incoming row `r`? -/
def planKey (r x : DailyDismissal) : Bool :=
  x.student_id == r.student_id && x.dismissal_date == r.dismissal_date

/-- The `DO UPDATE SET` clause: overwrite the non-key fields of the
conflicting row `x` with those of the incoming row `r`. -/
def planUpdate (r x : DailyDismissal) : DailyDismissal :=
  { x with dismissal_type := r.dismissal_type, destination := r.destination,
           notes := r.notes, is_override := r.is_override }

/-- `ON CONFLICT(student_id, dismissal_date) DO UPDATE`: replace the
non-key fields of the matching `daily_dismissal` row in place, otherwise
append. -/
def upsert_daily (l : List DailyDismissal) (r : DailyDismissal) : List DailyDismissal :=
  if l.any (planKey r) then l.map (fun x => if planKey r x then planUpdate r x else x)
  else l ++ [r]

/-- `POST /api/dismissal/plan`: `if not all([student_id, date, d_type])`
rejects with a 400 (a missing/null field, the id 0 and the empty string
are all falsy) before the store is touched; otherwise one upsert keyed on
(student_id, dismissal_date). -/
def save_dismissal_plan (db : DB) (p : PlanPayload) : DB × Except HttpError Unit :=
  match p.student_id, p.dismissal_date, p.dismissal_type with
  | some sid, some d, some t =>
    if sid == 0 || d == "" || t == "" then (db, .error .badRequest)
    else
      let r : DailyDismissal :=
        { student_id := sid, dismissal_date := d, dismissal_type := t,
          destination := p.destination, notes := p.notes,
          is_override := p.is_override }
      ({ db with daily_dismissal := upsert_daily db.daily_dismissal r }, .ok ())
  | _, _, _ => (db, .error .badRequest)

/-- A sequence of independent plan-save requests, each applied to the
state the previous one left behind. -/
def apply_plan_saves (db : DB) (ps : List PlanPayload) : DB :=
  ps.foldl (fun db p => (save_dismissal_plan db p).1) db

/-- The `daily_dismissal` rows of one (student, date) pair. -/
def recordsFor (l : List DailyDismissal) (sid : Nat) (d : String) : List DailyDismissal :=
  l.filter (fun x => x.student_id == sid && x.dismissal_date == d)

/-! ### `POST /api/dismissal/load-defaults` (`load_dismissal_defaults`) -/

/-- The students-table column named by the `day_key` request field
(`dismissal_{day_key}`); the handler only reaches this with a validated
key. -/
def dayColKey (day_key : String) (s : Student) : Option String :=
  if day_key == "mon" then s.dismissal_mon
  else if day_key == "tue" then s.dismissal_tue
  else if day_key == "wed" then s.dismissal_wed
  else if day_key == "thu" then s.dismissal_thu
  else if day_key == "fri" then s.dismissal_fri
  else none

/-- The SQL row filter `status = 'active' AND {col} IS NOT NULL AND {col} != ''`. -/
def qualifies (day_key : String) (s : Student) : Bool :=
  s.status == "active" &&
    match dayColKey day_key s with
    | some v => v != ""
    | none => false

/-- The record auto-populated from a student's weekly default:
destination `"Aftercare"` when the default is `"activity"`, empty
otherwise; empty notes; override flag 0. -/
def mkDefaultRecord (date day_key : String) (s : Student) : DailyDismissal :=
  let t := (dayColKey day_key s).getD ""
  { student_id := s.student_id, dismissal_date := date, dismissal_type := t,
    destination := some (if t == "activity" then "Aftercare" else ""),
    notes := some "", is_override := some 0 }

/-- `INSERT OR IGNORE` on UNIQUE(student_id, dismissal_date): skip when a
row of the same key is already present. -/
def insertOrIgnore (l : List DailyDismissal) (r : DailyDismissal) : List DailyDismissal :=
  if l.any (fun x => x.student_id == r.student_id && x.dismissal_date == r.dismissal_date) then l
  else l ++ [r]

/-- The body of the load-defaults loop over qualifying students: `existing`
is the pre-loop snapshot of student ids already covered for the date; a
student outside it gets an insert-or-ignore and bumps the counter. -/
def loadStep (date day_key : String) (existing : List Nat)
    (acc : List DailyDismissal × Nat) (s : Student) : List DailyDismissal × Nat :=
  if existing.contains s.student_id then acc
  else (insertOrIgnore acc.1 (mkDefaultRecord date day_key s), acc.2 + 1)

/-- `POST /api/dismissal/load-defaults`: validate `date` and `day_key`
(missing/empty → 400, key outside mon…fri → 400), snapshot the ids
already covered for the date, then insert a default-derived record for
every active student with a non-empty default for that weekday who is not
covered yet; reply with the insert counter. -/
def load_dismissal_defaults (db : DB) (date day_key : Option String) :
    DB × Except HttpError Nat :=
  match date, day_key with
  | some dt, some dk =>
    if dt == "" || dk == "" then (db, .error .badRequest)
    else if !(["mon", "tue", "wed", "thu", "fri"].contains dk) then (db, .error .badRequest)
    else
      let existing := (db.daily_dismissal.filter (fun r => r.dismissal_date == dt)).map
        (·.student_id)
      let out := (db.students.filter (qualifies dk)).foldl (loadStep dt dk existing)
        (db.daily_dismissal, 0)
      ({ db with daily_dismissal := out.1 }, .ok out.2)
  | _, _ => (db, .error .badRequest)

/-! ### C8 — bulk default population fills gaps only, idempotently -/

/-- The load-defaults loop only appends, and every appended record is the
default-derived record of some processed student not covered by the
pre-loop snapshot. -/
theorem loadLoop_append (dt dk : String) (existing : List Nat) :
    ∀ (qs : List Student) (acc : List DailyDismissal × Nat),
    ∃ new, (qs.foldl (loadStep dt dk existing) acc).1 = acc.1 ++ new
      ∧ ∀ r ∈ new, ∃ s ∈ qs, existing.contains s.student_id = false
          ∧ r = mkDefaultRecord dt dk s := by
  intro qs
  induction qs with
  | nil =>
    intro acc
    exact ⟨[], by simp, by simp⟩
  | cons s qs ih =>
    intro acc
    rw [List.foldl_cons]
    by_cases hc : existing.contains s.student_id = true
    · obtain ⟨new, h1, h2⟩ := ih (loadStep dt dk existing acc s)
      refine ⟨new, ?_, ?_⟩
      · rw [h1]
        unfold loadStep
        rw [if_pos hc]
      · intro r hr
        obtain ⟨s', hs', hc', hr'⟩ := h2 r hr
        exact ⟨s', List.mem_cons_of_mem s hs', hc', hr'⟩
    · have hc' : existing.contains s.student_id = false := by
        simpa using hc
      have hstep : loadStep dt dk existing acc s
          = (insertOrIgnore acc.1 (mkDefaultRecord dt dk s), acc.2 + 1) := by
        unfold loadStep
        rw [if_neg hc]
      obtain ⟨new, h1, h2⟩ := ih (loadStep dt dk existing acc s)
      by_cases hany : acc.1.any (fun x => x.student_id == (mkDefaultRecord dt dk s).student_id
          && x.dismissal_date == (mkDefaultRecord dt dk s).dismissal_date) = true
      · refine ⟨new, ?_, ?_⟩
        · rw [h1, hstep]
          unfold insertOrIgnore
          rw [if_pos hany]
        · intro r hr
          obtain ⟨s', hs', hcc, hr'⟩ := h2 r hr
          exact ⟨s', List.mem_cons_of_mem s hs', hcc, hr'⟩
      · refine ⟨mkDefaultRecord dt dk s :: new, ?_, ?_⟩
        · rw [h1, hstep]
          unfold insertOrIgnore
          rw [if_neg hany]
          simp
        · intro r hr
          rcases List.mem_cons.mp hr with hr | hr
          · exact ⟨s, List.mem_cons_self s qs, hc', hr⟩
          · obtain ⟨s', hs', hcc, hr'⟩ := h2 r hr
            exact ⟨s', List.mem_cons_of_mem s hs', hcc, hr'⟩

theorem loadLoop_noop (dt dk : String) (existing : List Nat) :
    ∀ (qs : List Student) (acc : List DailyDismissal × Nat),
    (∀ s ∈ qs, existing.contains s.student_id = true) →
    qs.foldl (loadStep dt dk existing) acc = acc := by
  intro qs
  induction qs with
  | nil => intro acc h; rfl
  | cons s qs ih =>
    intro acc h
    rw [List.foldl_cons]
    have hstep : loadStep dt dk existing acc s = acc := by
      unfold loadStep
      rw [if_pos (h s (List.mem_cons_self s qs))]
    rw [hstep]
    exact ih acc (fun s' hs' => h s' (List.mem_cons_of_mem s hs'))

theorem loadLoop_covers (dt dk : String) (existing : List Nat) :
    ∀ (qs : List Student) (acc : List DailyDismissal × Nat),
    (∀ i ∈ existing, ∃ r ∈ acc.1, r.student_id = i ∧ r.dismissal_date = dt) →
    ∀ s ∈ qs, ∃ r ∈ (qs.foldl (loadStep dt dk existing) acc).1,
      r.student_id = s.student_id ∧ r.dismissal_date = dt := by
  intro qs
  induction qs with
  | nil =>
    intro acc hpre s hs
    cases hs
  | cons s0 qs ih =>
    intro acc hpre s hs
    rw [List.foldl_cons]
    have hmono : ∃ ext, (loadStep dt dk existing acc s0).1 = acc.1 ++ ext := by
      unfold loadStep
      by_cases hc : existing.contains s0.student_id = true
      · rw [if_pos hc]
        exact ⟨[], by simp⟩
      · rw [if_neg hc]
        unfold insertOrIgnore
        by_cases hany : acc.1.any (fun x =>
            x.student_id == (mkDefaultRecord dt dk s0).student_id
            && x.dismissal_date == (mkDefaultRecord dt dk s0).dismissal_date) = true
        · rw [if_pos hany]
          exact ⟨[], by simp⟩
        · rw [if_neg hany]
          exact ⟨[mkDefaultRecord dt dk s0], rfl⟩
    obtain ⟨ext, hext⟩ := hmono
    have hpre' : ∀ i ∈ existing, ∃ r ∈ (loadStep dt dk existing acc s0).1,
        r.student_id = i ∧ r.dismissal_date = dt := by
      intro i hi
      obtain ⟨r, hr, h1, h2⟩ := hpre i hi
      exact ⟨r, by rw [hext]; exact List.mem_append_left ext hr, h1, h2⟩
    rcases List.mem_cons.mp hs with hs | hs
    · subst hs
      have hrec : ∃ r ∈ (loadStep dt dk existing acc s).1,
          r.student_id = s.student_id ∧ r.dismissal_date = dt := by
        unfold loadStep
        by_cases hc : existing.contains s.student_id = true
        · rw [if_pos hc]
          have hmem : s.student_id ∈ existing := by
            simpa using hc
          exact hpre s.student_id hmem
        · rw [if_neg hc]
          unfold insertOrIgnore
          by_cases hany : acc.1.any (fun x =>
              x.student_id == (mkDefaultRecord dt dk s).student_id
              && x.dismissal_date == (mkDefaultRecord dt dk s).dismissal_date) = true
          · rw [if_pos hany]
            obtain ⟨x, hx, hx2⟩ := List.any_eq_true.mp hany
            refine ⟨x, hx, ?_⟩
            simpa [mkDefaultRecord, Bool.and_eq_true, beq_iff_eq] using hx2
          · rw [if_neg hany]
            exact ⟨mkDefaultRecord dt dk s, List.mem_append_right _ (List.mem_singleton.mpr rfl),
              rfl, rfl⟩
      obtain ⟨r, hr, h1, h2⟩ := hrec
      obtain ⟨new, hnew, _⟩ := loadLoop_append dt dk existing qs (loadStep dt dk existing acc s)
      exact ⟨r, by rw [hnew]; exact List.mem_append_left new hr, h1, h2⟩
    · exact ih (loadStep dt dk existing acc s0) hpre' s hs

/-- C8: bulk default population appends records only — never touching the
rows already present — exactly for active students with a non-empty
default for the weekday and no existing record for the date (with
destination "Aftercare" when the default is "activity", empty otherwise),
and a second run for the same date inserts nothing: no duplicates, no
overwrites. -/
theorem load_defaults_spec (db : DB) (dt dk : String) (hdt : dt ≠ "")
    (hdk : dk ∈ (["mon", "tue", "wed", "thu", "fri"] : List String)) :
    ∃ new n,
      load_dismissal_defaults db (some dt) (some dk)
        = ({ db with daily_dismissal := db.daily_dismissal ++ new }, .ok n)
      ∧ (∀ r ∈ new, r.dismissal_date = dt
           ∧ ∃ s ∈ db.students, s.status = "active" ∧ s.student_id = r.student_id
             ∧ dayColKey dk s = some r.dismissal_type ∧ r.dismissal_type ≠ ""
             ∧ (∀ r0 ∈ db.daily_dismissal,
                 ¬(r0.dismissal_date = dt ∧ r0.student_id = s.student_id))
             ∧ r.destination = some (if r.dismissal_type == "activity" then "Aftercare" else ""))
      ∧ load_dismissal_defaults { db with daily_dismissal := db.daily_dismissal ++ new }
          (some dt) (some dk)
          = ({ db with daily_dismissal := db.daily_dismissal ++ new }, .ok 0) := by
  have hdk0 : dk ≠ "" := by
    intro h
    subst h
    simp at hdk
  have hc1 : (dt == "" || dk == "") = false := by simp [hdt, hdk0]
  have hc2 : (!(["mon", "tue", "wed", "thu", "fri"].contains dk)) = false := by
    simp only [Bool.not_eq_false']
    simpa using hdk
  -- run 1
  set existing := (db.daily_dismissal.filter (fun r => r.dismissal_date == dt)).map
    (·.student_id) with hex
  set qs := db.students.filter (qualifies dk) with hqs
  obtain ⟨new, hnew, hchar⟩ := loadLoop_append dt dk existing qs (db.daily_dismissal, 0)
  refine ⟨new, (qs.foldl (loadStep dt dk existing) (db.daily_dismissal, 0)).2, ?_, ?_, ?_⟩
  · -- run-1 equation
    unfold load_dismissal_defaults
    simp only [hc1, Bool.false_eq_true, if_false, hc2]
    rw [← hex, ← hqs, hnew]
  · -- characterisation of the inserted records
    intro r hr
    obtain ⟨s, hs, hcont, hr'⟩ := hchar r hr
    subst hr'
    rw [hqs] at hs
    obtain ⟨hsmem, hq⟩ := List.mem_filter.mp hs
    unfold qualifies at hq
    rw [Bool.and_eq_true] at hq
    obtain ⟨hact, hcol⟩ := hq
    cases hcolv : dayColKey dk s with
    | none => rw [hcolv] at hcol; simp at hcol
    | some v =>
      rw [hcolv] at hcol
      have hv : v ≠ "" := by simpa using hcol
      refine ⟨rfl, s, hsmem, by simpa using hact, rfl, ?_, ?_, ?_, rfl⟩
      · simp [mkDefaultRecord, hcolv]
      · simp [mkDefaultRecord, hcolv, hv]
      · intro r0 hr0 hcon
        obtain ⟨ha, hb⟩ := hcon
        have hmem : s.student_id ∈ existing := by
          rw [hex]
          exact List.mem_map.mpr ⟨r0, List.mem_filter.mpr ⟨hr0, by simp [ha]⟩, hb⟩
        have : existing.contains s.student_id = true := by simpa using hmem
        rw [this] at hcont
        cases hcont
  · -- idempotence: the second run inserts nothing
    have hpre : ∀ i ∈ existing, ∃ r ∈ db.daily_dismissal,
        r.student_id = i ∧ r.dismissal_date = dt := by
      intro i hi
      rw [hex] at hi
      obtain ⟨r0, hr0f, hr0id⟩ := List.mem_map.mp hi
      obtain ⟨hr0m, hr0d⟩ := List.mem_filter.mp hr0f
      exact ⟨r0, hr0m, hr0id, by simpa using hr0d⟩
    have hcov := loadLoop_covers dt dk existing qs (db.daily_dismissal, 0) hpre
    have hcontained : ∀ s ∈ qs,
        (((db.daily_dismissal ++ new).filter (fun r => r.dismissal_date == dt)).map
          (·.student_id)).contains s.student_id = true := by
      intro s hs
      obtain ⟨r, hrmem, h1, h2⟩ := hcov s hs
      rw [hnew] at hrmem
      have : s.student_id ∈ ((db.daily_dismissal ++ new).filter
          (fun r => r.dismissal_date == dt)).map (·.student_id) :=
        List.mem_map.mpr ⟨r, List.mem_filter.mpr ⟨hrmem, by simp [h2]⟩, h1⟩
      simpa using this
    unfold load_dismissal_defaults
    simp only [hc1, Bool.false_eq_true, if_false, hc2]
    rw [loadLoop_noop dt dk _ _ _ hcontained]

/-! ### Demonstration data used by witnesses and counterexamples -/

/-- A grade-2 student whose Monday and Tuesday defaults are "bus". -/
def demoStudent : Student :=
  { student_id := 1, first_name := "Ann", last_name := "Baker", grade := some "2",
    status := "active", dismissal_mon := some "bus", dismissal_tue := some "bus",
    dismissal_wed := none, dismissal_thu := none, dismissal_fri := none }

/-- A grade-6 student with no weekly defaults. -/
def demoStudent2 : Student :=
  { student_id := 2, first_name := "Bob", last_name := "Cole", grade := some "6",
    status := "active", dismissal_mon := none, dismissal_tue := none,
    dismissal_wed := none, dismissal_thu := none, dismissal_fri := none }

/-- A planner record for student 2 on 2026-02-17. -/
def demoPlanRec : DailyDismissal :=
  { student_id := 2, dismissal_date := "2026-02-17", dismissal_type := "pickup",
    destination := some "Front Door", notes := some "", is_override := some 1 }

/-- A store with one student and no planner records. -/
def demoDB : DB := { students := [demoStudent], daily_dismissal := [], dismissal_today := [] }

/-- A store with two students and one planner record (for student 2). -/
def demoDB2 : DB :=
  { students := [demoStudent, demoStudent2], daily_dismissal := [demoPlanRec],
    dismissal_today := [] }

/-! ### Helper lemmas -/

theorem contains_quad (a b c d : String) : ∀ g : String,
    ([a, b, c, d].contains g) = (g == a || g == b || g == c || g == d) := by
  intro g
  simp only [List.contains, List.elem]
  cases g == a <;> cases g == b <;> cases g == c <;> cases g == d <;> rfl

theorem mem_insertSorted (a x : Student) (l : List Student) :
    x ∈ insertSorted a l ↔ x = a ∨ x ∈ l := by
  induction l with
  | nil => simp [insertSorted]
  | cons b l ih =>
    by_cases h : rowLe a b = true
    · simp [insertSorted, h]
    · simp only [insertSorted, h, if_neg, Bool.not_eq_true, ite_false, List.mem_cons, ih]
      tauto

theorem mem_sortStudents (x : Student) (l : List Student) :
    x ∈ sortStudents l ↔ x ∈ l := by
  induction l with
  | nil => simp [sortStudents]
  | cons a l ih => simp [sortStudents, mem_insertSorted, ih]

/-- The view reads only `students` and `daily_dismissal`; states agreeing
there give identical view results. -/
theorem get_dismissal_today_congr (db₁ db₂ : DB) (dp : String) (gf : Option String)
    (hs : db₁.students = db₂.students) (hd : db₁.daily_dismissal = db₂.daily_dismissal) :
    get_dismissal_today db₁ dp gf = get_dismissal_today db₂ dp gf := by
  cases db₁; cases db₂
  simp only at hs hd
  subst hs; subst hd
  rfl

/-! ### C1 — pure-default dates -/

/-- C1: for a (parsable) target date with zero `daily_dismissal` records,
the view answers with source = "default" and every active student matching
the grade filter appears with `dismissal` equal to the Default Resolver's
output for that date's weekday and with null `activity` and `notes`. -/
theorem default_source_view (db : DB) (dp : String) (gf : Option String) (dt : PyDate)
    (hparse : fromisoformat dp = some dt)
    (hempty : ∀ r ∈ db.daily_dismissal, r.dismissal_date ≠ dp) :
    ∃ resp, (get_dismissal_today db dp gf).2 = .ok resp
      ∧ resp.source = "default"
      ∧ ∀ s ∈ db.students, s.status = "active" → gradeMatch gf s = true →
          ∃ row ∈ resp.students, row.id = s.student_id
            ∧ row.dismissal = resolve_default dt s
            ∧ row.activity = none ∧ row.notes = none := by
  have hfil : db.daily_dismissal.filter (fun r => r.dismissal_date == dp) = [] := by
    rw [List.filter_eq_nil_iff]
    intro r hr
    simpa using hempty r hr
  unfold get_dismissal_today
  simp only [hfil, List.length_nil, lt_self_iff_false, gt_iff_lt, if_false, hparse]
  refine ⟨_, rfl, rfl, ?_⟩
  intro s hs hact hgr
  have hsf : s ∈ db.students.filter (fun s => s.status == "active" && gradeMatch gf s) := by
    rw [List.mem_filter]
    exact ⟨hs, by simp [hact, hgr]⟩
  have hss := (mem_sortStudents s _).mpr hsf
  refine ⟨finalizeRow (weekdayName dt) (defaultRow (weekdayName dt) s), ?_, rfl, rfl, rfl, rfl⟩
  exact List.mem_map_of_mem _ (List.mem_map_of_mem _ hss)

/-- Witness for C1: the demo store has no planner records for the Tuesday
2026-02-17, so the view falls back to defaults. -/
theorem default_source_view_witness :
    ∃ resp, (get_dismissal_today demoDB "2026-02-17" none).2 = .ok resp
      ∧ resp.source = "default"
      ∧ ∀ s ∈ demoDB.students, s.status = "active" → gradeMatch none s = true →
          ∃ row ∈ resp.students, row.id = s.student_id
            ∧ row.dismissal = resolve_default ⟨2026, 2, 17⟩ s
            ∧ row.activity = none ∧ row.notes = none :=
  default_source_view demoDB "2026-02-17" none ⟨2026, 2, 17⟩ (by decide) (by decide)

/-! ### C2 — partially planned dates -/

/-- C2: for a (parsable) target date with at least one `daily_dismissal`
record, the view answers with source = "today", and every active student
matching the grade filter who has no individual record for that date
still appears — with null `dismissal`, `activity` and `notes` — rather
than being omitted. -/
theorem today_source_view (db : DB) (dp : String) (gf : Option String) (dt : PyDate)
    (hparse : fromisoformat dp = some dt)
    (hsome : ∃ r ∈ db.daily_dismissal, r.dismissal_date = dp) :
    ∃ resp, (get_dismissal_today db dp gf).2 = .ok resp
      ∧ resp.source = "today"
      ∧ ∀ s ∈ db.students, s.status = "active" → gradeMatch gf s = true →
          (∀ r ∈ db.daily_dismissal, ¬(r.student_id = s.student_id ∧ r.dismissal_date = dp)) →
          ∃ row ∈ resp.students, row.id = s.student_id
            ∧ row.dismissal = none ∧ row.activity = none ∧ row.notes = none := by
  have hfil : 0 < (db.daily_dismissal.filter (fun r => r.dismissal_date == dp)).length := by
    obtain ⟨r, hr, hrd⟩ := hsome
    have hm : r ∈ db.daily_dismissal.filter (fun r => r.dismissal_date == dp) := by
      rw [List.mem_filter]
      exact ⟨hr, by simp [hrd]⟩
    exact List.length_pos.mpr (List.ne_nil_of_mem hm)
  unfold get_dismissal_today
  rw [if_pos hfil]
  simp only [hparse]
  refine ⟨_, rfl, rfl, ?_⟩
  intro s hs hact hgr hnone
  have hfind : db.daily_dismissal.find?
      (fun r => r.student_id == s.student_id && r.dismissal_date == dp) = none := by
    rw [List.find?_eq_none]
    intro r hr
    have := hnone r hr
    simp only [Bool.and_eq_true, beq_iff_eq]
    tauto
  have hsf : s ∈ db.students.filter (fun s => s.status == "active" && gradeMatch gf s) := by
    rw [List.mem_filter]
    exact ⟨hs, by simp [hact, hgr]⟩
  have hss := (mem_sortStudents s _).mpr hsf
  refine ⟨finalizeRow (weekdayName dt)
      (joinRow s (db.daily_dismissal.find?
        (fun r => r.student_id == s.student_id && r.dismissal_date == dp))), ?_, rfl, ?_, ?_, ?_⟩
  · exact List.mem_map_of_mem _ (List.mem_map_of_mem _ hss)
  · simp [finalizeRow, joinRow, hfind]
  · simp [finalizeRow, joinRow, hfind]
  · simp [finalizeRow, joinRow, hfind]

/-- Witness for C2: student 2 has a planner record for 2026-02-17 while
student 1 has none, so the view is in "today" mode and student 1 appears
with null fields. -/
theorem today_source_view_witness :
    ∃ resp, (get_dismissal_today demoDB2 "2026-02-17" none).2 = .ok resp
      ∧ resp.source = "today"
      ∧ ∀ s ∈ demoDB2.students, s.status = "active" → gradeMatch none s = true →
          (∀ r ∈ demoDB2.daily_dismissal,
            ¬(r.student_id = s.student_id ∧ r.dismissal_date = "2026-02-17")) →
          ∃ row ∈ resp.students, row.id = s.student_id
            ∧ row.dismissal = none ∧ row.activity = none ∧ row.notes = none :=
  today_source_view demoDB2 "2026-02-17" none ⟨2026, 2, 17⟩ (by decide)
    ⟨demoPlanRec, by decide, by decide⟩

/-! ### C3 — the ends-in rule evaluator -/

/-- C3: the Ends-In Rule Evaluator `calc_ends_in` is a pure total function
of (grade, weekday) that agrees with the specification's first-match-wins
rule table on every input, and in particular on the enumerated cases:
("3","Tuesday") → ("elective","Elective"); ("6","Tuesday") →
("elective","Advisory"); ("6","Thursday") → ("elective","Elective");
("K","Tuesday") → ("homeroom", null); ("7","Monday") → ("homeroom", null);
missing or blank grade → ("homeroom", null). -/
theorem calc_ends_in_matches_rule_table :
    (∀ g w, calc_ends_in g w = spec_ends_in_rules g w)
    ∧ calc_ends_in (some "3") "Tuesday" = ("elective", some "Elective")
    ∧ calc_ends_in (some "6") "Tuesday" = ("elective", some "Advisory")
    ∧ calc_ends_in (some "6") "Thursday" = ("elective", some "Elective")
    ∧ calc_ends_in (some "K") "Tuesday" = ("homeroom", none)
    ∧ calc_ends_in (some "7") "Monday" = ("homeroom", none)
    ∧ calc_ends_in none "Tuesday" = ("homeroom", none)
    ∧ calc_ends_in (some "") "Thursday" = ("homeroom", none) := by
  refine ⟨fun g w => ?_, by decide, by decide, by decide, by decide, by decide,
    by decide, by decide⟩
  unfold calc_ends_in spec_ends_in_rules LOWER_SCHOOL MIDDLE_SCHOOL
  simp only [contains_quad]

/-! ### C4 — POST/DELETE `/api/dismissal/today` never change the view -/

/-- C4: the batch save writes only `dismissal_today`, the clear deletes
only from `dismissal_today`, and the view reads only `students` and
`daily_dismissal` — so saving or clearing and then reading the view gives
exactly what reading the view alone gives, for every state, date, batch,
and view request. -/
theorem today_writes_never_change_view :
    ∀ (db : DB) (pd : String) (recs : List TodayRecord) (cd : Option String)
      (dp : String) (gf : Option String),
      (save_dismissal_today db pd recs).1.students = db.students
      ∧ (save_dismissal_today db pd recs).1.daily_dismissal = db.daily_dismissal
      ∧ (clear_dismissal_today db cd).1.students = db.students
      ∧ (clear_dismissal_today db cd).1.daily_dismissal = db.daily_dismissal
      ∧ get_dismissal_today (save_dismissal_today db pd recs).1 dp gf
          = get_dismissal_today db dp gf
      ∧ get_dismissal_today (clear_dismissal_today db cd).1 dp gf
          = get_dismissal_today db dp gf := by
  intro db pd recs cd dp gf
  have h₁ : (save_dismissal_today db pd recs).1.students = db.students := by
    unfold save_dismissal_today; split <;> rfl
  have h₂ : (save_dismissal_today db pd recs).1.daily_dismissal = db.daily_dismissal := by
    unfold save_dismissal_today; split <;> rfl
  have h₃ : (clear_dismissal_today db cd).1.students = db.students := by
    unfold clear_dismissal_today
    cases cd with
    | none => rfl
    | some d => dsimp only; split <;> rfl
  have h₄ : (clear_dismissal_today db cd).1.daily_dismissal = db.daily_dismissal := by
    unfold clear_dismissal_today
    cases cd with
    | none => rfl
    | some d => dsimp only; split <;> rfl
  exact ⟨h₁, h₂, h₃, h₄,
    get_dismissal_today_congr _ _ dp gf h₁ h₂,
    get_dismissal_today_congr _ _ dp gf h₃ h₄⟩

/-! ### C5 — weekend dates and the Default Resolver -/

/-- C5 counterexample: 2026-02-14 falls on Saturday, yet the Default
Resolver returns the student's stored Monday default "bus" — not "no
default" — and the view on that date shows it. -/
theorem weekend_resolver_counterexample :
    weekdayName ⟨2026, 2, 14⟩ = "Saturday"
    ∧ fromisoformat "2026-02-14" = some ⟨2026, 2, 14⟩
    ∧ resolve_default ⟨2026, 2, 14⟩ demoStudent = some "bus"
    ∧ ¬ resolve_default ⟨2026, 2, 14⟩ demoStudent = none
    ∧ (get_dismissal_today demoDB "2026-02-14" none).2
        = .ok { date := "2026-02-14", source := "default", day := "Saturday",
                students := [{ id := 1, firstName := "Ann", lastName := "Baker",
                               grade := some "2", dismissal := some "bus",
                               activity := none, endsIn := "homeroom",
                               elective := none, notes := none,
                               name := "Ann Baker" }] } := by
  exact ⟨by decide, by decide, by decide, by decide, by decide⟩

/-- C5 amended: for a target date falling on Saturday or Sunday the
Default Resolver does not produce "no default" — the source's
`day_col_map.get(day_name, 'dismissal_mon')` fallback makes it return the
student's stored Monday default. -/
theorem weekend_resolver_falls_back_to_monday (dt : PyDate) (s : Student)
    (h : weekdayName dt = "Saturday" ∨ weekdayName dt = "Sunday") :
    resolve_default dt s = s.dismissal_mon := by
  rcases h with h | h <;> · unfold resolve_default; rw [h]; rfl

/-- Witness for the amended C5 at the concrete Sunday 2026-02-15. -/
theorem weekend_resolver_falls_back_to_monday_witness :
    resolve_default ⟨2026, 2, 15⟩ demoStudent = demoStudent.dismissal_mon :=
  weekend_resolver_falls_back_to_monday ⟨2026, 2, 15⟩ demoStudent (Or.inr (by decide))

/-! ### C6 — unparsable dates -/

/-- C6 counterexample: for the unparsable date "not-a-date" the handler
issues the planner-existence count query against the store *before*
failing — the request is not rejected before any store query is issued. -/
theorem unparsable_date_counterexample :
    fromisoformat "not-a-date" = none
    ∧ get_dismissal_today demoDB "not-a-date" none
        = ([StoreQuery.countDaily "not-a-date"], .error .valueError)
    ∧ (get_dismissal_today demoDB "not-a-date" none).1 ≠ [] := by
  exact ⟨by decide, by decide, by decide⟩

/-- C6 amended: an unparsable date always makes the request fail with the
uncaught date-parse error — it is never answered as if the date were
today, and never yields any view (in particular none with source
"today") — but the failure comes after the planner-existence count query
(and, when raw-string rows match, after the join query), not before. -/
theorem unparsable_date_always_errors (db : DB) (dp : String) (gf : Option String)
    (h : fromisoformat dp = none) :
    (get_dismissal_today db dp gf).2 = .error .valueError := by
  unfold get_dismissal_today
  simp only [h]
  split <;> rfl

/-- Witness for the amended C6 at the concrete input "not-a-date". -/
theorem unparsable_date_always_errors_witness :
    (get_dismissal_today demoDB "not-a-date" none).2 = .error .valueError :=
  unparsable_date_always_errors demoDB "not-a-date" none (by decide)

/-! ### C7 — upsert keeps exactly one record per (student, date) -/

theorem planKey_self (r : DailyDismissal) : planKey r r = true := by simp [planKey]

theorem planUpdate_eq (r x : DailyDismissal) (h : planKey r x = true) :
    planUpdate r x = r := by
  have hx : x.student_id = r.student_id ∧ x.dismissal_date = r.dismissal_date := by
    simpa [planKey, Bool.and_eq_true, beq_iff_eq] using h
  cases x; cases r
  simp_all [planUpdate]

theorem map_id_of_filter_nil (r : DailyDismissal) (l : List DailyDismissal)
    (h : l.filter (planKey r) = []) :
    l.map (fun x => if planKey r x then planUpdate r x else x) = l := by
  induction l with
  | nil => rfl
  | cons x l ih =>
    rw [List.filter_cons] at h
    by_cases hx : planKey r x = true
    · simp [hx] at h
    · rw [List.map_cons, if_neg (by simp [hx])]
      rw [if_neg (by simp [hx])] at h
      rw [ih h]

theorem filter_map_upsert (r : DailyDismissal) : ∀ l : List DailyDismissal,
    l.any (planKey r) = true → (l.filter (planKey r)).length ≤ 1 →
    (l.map (fun x => if planKey r x then planUpdate r x else x)).filter (planKey r) = [r] := by
  intro l
  induction l with
  | nil => intro h; simp at h
  | cons x l ih =>
    intro hany hinv
    by_cases hx : planKey r x = true
    · have hnil : l.filter (planKey r) = [] := by
        rw [List.filter_cons, if_pos hx] at hinv
        simp only [List.length_cons] at hinv
        have h0 : (l.filter (planKey r)).length = 0 := by omega
        exact List.length_eq_zero.mp h0
      rw [List.map_cons, if_pos hx, planUpdate_eq r x hx, map_id_of_filter_nil r l hnil]
      rw [List.filter_cons, if_pos (planKey_self r), hnil]
    · have hany' : l.any (planKey r) = true := by
        rw [List.any_cons] at hany
        simpa [hx] using hany
      have hinv' : (l.filter (planKey r)).length ≤ 1 := by
        rw [List.filter_cons, if_neg (by simp [hx])] at hinv
        exact hinv
      rw [List.map_cons, if_neg (by simp [hx]), List.filter_cons, if_neg (by simp [hx])]
      exact ih hany' hinv'

/-- Upserting into a table with at most one row for the conflict key
leaves exactly one row for the key: the incoming one. -/
theorem filter_upsert (l : List DailyDismissal) (r : DailyDismissal)
    (hinv : (l.filter (planKey r)).length ≤ 1) :
    (upsert_daily l r).filter (planKey r) = [r] := by
  by_cases hany : l.any (planKey r) = true
  · unfold upsert_daily
    rw [if_pos hany]
    exact filter_map_upsert r l hany hinv
  · unfold upsert_daily
    rw [if_neg hany]
    rw [List.filter_append]
    have hnil : l.filter (planKey r) = [] := by
      rw [List.filter_eq_nil_iff]
      intro x hx
      rw [List.any_eq_true] at hany
      push_neg at hany
      simpa using hany x hx
    rw [hnil]
    simp [planKey_self]

/-- The `daily_dismissal` row a valid plan payload stores. -/
def mkPlanRec (sid : Nat) (d t : String) (p : PlanPayload) : DailyDismissal :=
  { student_id := sid, dismissal_date := d, dismissal_type := t,
    destination := p.destination, notes := p.notes, is_override := p.is_override }

theorem save_plan_valid (db : DB) (p : PlanPayload) (sid : Nat) (d t : String)
    (hp1 : p.student_id = some sid) (hp2 : p.dismissal_date = some d)
    (hp3 : p.dismissal_type = some t) (hsid : sid ≠ 0) (hd : d ≠ "") (ht : t ≠ "") :
    save_dismissal_plan db p =
      ({ db with daily_dismissal := upsert_daily db.daily_dismissal (mkPlanRec sid d t p) },
       .ok ()) := by
  unfold save_dismissal_plan
  rw [hp1, hp2, hp3]
  have hc : (sid == 0 || d == "" || t == "") = false := by simp [hsid, hd, ht]
  simp only [hc, Bool.false_eq_true, if_false]
  rfl

theorem save_plan_records (db : DB) (p : PlanPayload) (sid : Nat) (d t : String)
    (hp1 : p.student_id = some sid) (hp2 : p.dismissal_date = some d)
    (hp3 : p.dismissal_type = some t) (hsid : sid ≠ 0) (hd : d ≠ "") (ht : t ≠ "")
    (hinv : (recordsFor db.daily_dismissal sid d).length ≤ 1) :
    recordsFor (save_dismissal_plan db p).1.daily_dismissal sid d = [mkPlanRec sid d t p] := by
  rw [save_plan_valid db p sid d t hp1 hp2 hp3 hsid hd ht]
  exact filter_upsert db.daily_dismissal (mkPlanRec sid d t p) hinv

theorem plan_upserts_aux (sid : Nat) (d : String) (hsid : sid ≠ 0) (hd : d ≠ "") :
    ∀ (ps : List PlanPayload) (p : PlanPayload) (db : DB),
    (recordsFor db.daily_dismissal sid d).length ≤ 1 →
    (∀ q ∈ ps ++ [p], q.student_id = some sid ∧ q.dismissal_date = some d ∧
        ∃ t, q.dismissal_type = some t ∧ t ≠ "") →
    recordsFor (apply_plan_saves db (ps ++ [p])).daily_dismissal sid d
      = [mkPlanRec sid d (p.dismissal_type.getD "") p] := by
  intro ps
  induction ps with
  | nil =>
    intro p db hinv hall
    obtain ⟨hp1, hp2, t, hp3, ht⟩ := hall p (by simp)
    have hred : apply_plan_saves db [p] = (save_dismissal_plan db p).1 := rfl
    simp only [List.nil_append]
    rw [hred, save_plan_records db p sid d t hp1 hp2 hp3 hsid hd ht hinv, hp3]
    simp
  | cons q ps ih =>
    intro p db hinv hall
    obtain ⟨hq1, hq2, t, hq3, ht⟩ := hall q (by simp)
    have hstep := save_plan_records db q sid d t hq1 hq2 hq3 hsid hd ht hinv
    have hred : apply_plan_saves db (q :: (ps ++ [p]))
        = apply_plan_saves (save_dismissal_plan db q).1 (ps ++ [p]) := rfl
    simp only [List.cons_append]
    rw [hred]
    apply ih p _ ?_ ?_
    · rw [hstep]
      simp
    · intro q' hq'
      exact hall q' (by simp [hq'])

/-- C7: starting from a store satisfying the at-most-one-record invariant
for a (student, date) pair, any non-empty sequence of plan upserts for
that pair (with valid, possibly different payloads) leaves *exactly one*
`daily_dismissal` record for the pair — never two rows — and its
dismissal type, destination, notes and override flag are those of the
latest payload. -/
theorem plan_upsert_unique_latest (db : DB) (sid : Nat) (d : String)
    (ps : List PlanPayload) (p : PlanPayload)
    (hsid : sid ≠ 0) (hd : d ≠ "")
    (hinv : (recordsFor db.daily_dismissal sid d).length ≤ 1)
    (hall : ∀ q ∈ ps ++ [p], q.student_id = some sid ∧ q.dismissal_date = some d ∧
        ∃ t, q.dismissal_type = some t ∧ t ≠ "") :
    recordsFor (apply_plan_saves db (ps ++ [p])).daily_dismissal sid d
      = [{ student_id := sid, dismissal_date := d,
           dismissal_type := p.dismissal_type.getD "",
           destination := p.destination, notes := p.notes,
           is_override := p.is_override }] :=
  plan_upserts_aux sid d hsid hd ps p db hinv hall

/-- A first plan payload for student 1: bus. -/
def demoPlanPayload1 : PlanPayload :=
  { student_id := some 1, dismissal_date := some "2026-02-17",
    dismissal_type := some "bus", destination := some "", notes := some "",
    is_override := some 0 }

/-- A second plan payload for the same (student, date): pickup at the
front door, overriding. -/
def demoPlanPayload2 : PlanPayload :=
  { student_id := some 1, dismissal_date := some "2026-02-17",
    dismissal_type := some "pickup", destination := some "Front Door",
    notes := some "", is_override := some 1 }

/-- Witness for C7: two successive upserts for student 1 on 2026-02-17
leave exactly the one record of the second payload. -/
theorem plan_upsert_unique_latest_witness :
    recordsFor (apply_plan_saves demoDB
        ([demoPlanPayload1] ++ [demoPlanPayload2])).daily_dismissal 1 "2026-02-17"
      = [{ student_id := 1, dismissal_date := "2026-02-17",
           dismissal_type := demoPlanPayload2.dismissal_type.getD "",
           destination := demoPlanPayload2.destination,
           notes := demoPlanPayload2.notes,
           is_override := demoPlanPayload2.is_override }] :=
  plan_upsert_unique_latest demoDB 1 "2026-02-17" [demoPlanPayload1] demoPlanPayload2
    (by decide) (by decide) (by decide)
    (by
      intro q hq
      simp [demoPlanPayload1, demoPlanPayload2] at hq
      rcases hq with h | h <;> subst h
      · exact ⟨rfl, rfl, "bus", rfl, by decide⟩
      · exact ⟨rfl, rfl, "pickup", rfl, by decide⟩)

/-! ### C9 — batch save processes records independently -/

/-- The batch loop of `save_dismissal_today`, characterised: the final
table is the fold of upserts of exactly the records with a truthy
`student_id`, the counter grows by their number, and one error message is
appended per falsy record. -/
theorem todayLoop_char (pd : String) : ∀ (records : List TodayRecord)
    (l : List DismissalToday) (n : Nat) (e : List String),
    records.foldl (todayStep pd) (l, n, e) =
      ((records.filter (fun r => sidTruthy r.student_id)).foldl
         (fun l r => upsert_today l (mkTodayRec (r.student_id.getD 0) pd r)) l,
       n + (records.filter (fun r => sidTruthy r.student_id)).length,
       e ++ (records.filter (fun r => !sidTruthy r.student_id)).map
         (fun _ => "Missing student_id in record")) := by
  intro records
  induction records with
  | nil => intro l n e; simp
  | cons rec rest ih =>
    intro l n e
    cases h : rec.student_id with
    | none =>
      have hv : sidTruthy rec.student_id = false := by simp [sidTruthy, h]
      have hstep : todayStep pd (l, n, e) rec = (l, n, e ++ ["Missing student_id in record"]) := by
        simp [todayStep, h]
      rw [List.foldl_cons, hstep, ih]
      simp [hv, List.filter_cons, h, sidTruthy]
    | some a =>
      by_cases ha : a = 0
      · subst ha
        have hv : sidTruthy rec.student_id = false := by simp [sidTruthy, h]
        have hstep : todayStep pd (l, n, e) rec
            = (l, n, e ++ ["Missing student_id in record"]) := by
          simp [todayStep, h]
        rw [List.foldl_cons, hstep, ih]
        simp [hv, List.filter_cons, h, sidTruthy]
      · have hv : sidTruthy rec.student_id = true := by simp [sidTruthy, h, ha]
        have hv2 : sidTruthy (some a) = true := by simp [sidTruthy, ha]
        have hstep : todayStep pd (l, n, e) rec
            = (upsert_today l (mkTodayRec a pd rec), n + 1, e) := by
          simp [todayStep, h, ha]
        rw [List.foldl_cons, hstep, ih]
        simp [hv, hv2, List.filter_cons, h, Nat.add_assoc, Nat.add_comm 1]

/-- C9: every non-empty batch succeeds as a whole: records with a falsy
`student_id` each contribute one per-record error and do not stop the
rest — the stored table is the fold of upserts of exactly the valid
records — and the response reports the saved count together with the
error list, with counts summing to the batch size (never an
all-or-nothing failure). -/
theorem batch_save_partial_failure (db : DB) (pd : String) (records : List TodayRecord)
    (hne : records ≠ []) :
    ∃ db' resp, save_dismissal_today db pd records = (db', .ok resp)
      ∧ resp.saved = (records.filter (fun r => sidTruthy r.student_id)).length
      ∧ resp.errors = (records.filter (fun r => !sidTruthy r.student_id)).map
          (fun _ => "Missing student_id in record")
      ∧ resp.saved + resp.errors.length = records.length
      ∧ db'.students = db.students ∧ db'.daily_dismissal = db.daily_dismissal
      ∧ db'.dismissal_today = (records.filter (fun r => sidTruthy r.student_id)).foldl
          (fun l r => upsert_today l (mkTodayRec (r.student_id.getD 0) pd r))
          db.dismissal_today := by
  have hemp : records.isEmpty = false := by
    cases records with
    | nil => exact absurd rfl hne
    | cons a l => rfl
  unfold save_dismissal_today
  rw [hemp]
  simp only [Bool.false_eq_true, if_false, todayLoop_char]
  refine ⟨_, _, rfl, ?_, ?_, ?_, rfl, rfl, ?_⟩
  · simp
  · simp
  · have hpart := @List.length_eq_length_filter_add TodayRecord records
      (fun r => sidTruthy r.student_id)
    simp only [List.length_map, List.length_append, List.length_nil, Nat.zero_add]
    omega
  · rfl

/-- A well-formed batch record for student 1. -/
def demoTodayRec : TodayRecord :=
  { student_id := some 1, bus_route := some "POK", activity := none,
    ends_in := some "homeroom", elective_name := none, notes := some "" }

/-- A batch record with no `student_id`. -/
def demoBadRec : TodayRecord :=
  { student_id := none, bus_route := none, activity := none,
    ends_in := some "homeroom", elective_name := none, notes := none }

/-- Witness for C9: a batch whose first record is invalid still saves the
second. -/
theorem batch_save_partial_failure_witness :
    ∃ db' resp,
      save_dismissal_today demoDB "2026-02-18" [demoBadRec, demoTodayRec] = (db', .ok resp)
      ∧ resp.saved = ([demoBadRec, demoTodayRec].filter
          (fun r => sidTruthy r.student_id)).length
      ∧ resp.errors = ([demoBadRec, demoTodayRec].filter
          (fun r => !sidTruthy r.student_id)).map (fun _ => "Missing student_id in record")
      ∧ resp.saved + resp.errors.length = [demoBadRec, demoTodayRec].length
      ∧ db'.students = demoDB.students ∧ db'.daily_dismissal = demoDB.daily_dismissal
      ∧ db'.dismissal_today = ([demoBadRec, demoTodayRec].filter
          (fun r => sidTruthy r.student_id)).foldl
          (fun l r => upsert_today l (mkTodayRec (r.student_id.getD 0) "2026-02-18" r))
          demoDB.dismissal_today :=
  batch_save_partial_failure demoDB "2026-02-18" [demoBadRec, demoTodayRec] (by decide)

/-- Witness for C8 at the demo store (student 1 has Tuesday default
"bus" and no record for 2026-02-17). -/
theorem load_defaults_spec_witness :
    ∃ new n,
      load_dismissal_defaults demoDB (some "2026-02-17") (some "tue")
        = ({ demoDB with daily_dismissal := demoDB.daily_dismissal ++ new }, .ok n)
      ∧ (∀ r ∈ new, r.dismissal_date = "2026-02-17"
           ∧ ∃ s ∈ demoDB.students, s.status = "active" ∧ s.student_id = r.student_id
             ∧ dayColKey "tue" s = some r.dismissal_type ∧ r.dismissal_type ≠ ""
             ∧ (∀ r0 ∈ demoDB.daily_dismissal,
                 ¬(r0.dismissal_date = "2026-02-17" ∧ r0.student_id = s.student_id))
             ∧ r.destination = some (if r.dismissal_type == "activity" then "Aftercare" else ""))
      ∧ load_dismissal_defaults
          { demoDB with daily_dismissal := demoDB.daily_dismissal ++ new }
          (some "2026-02-17") (some "tue")
          = ({ demoDB with daily_dismissal := demoDB.daily_dismissal ++ new }, .ok 0) :=
  load_defaults_spec demoDB "2026-02-17" "tue" (by decide) (by decide)

/-! ### C10 — plan-save validation -/

/-- C10: a plan save whose `student_id`, `dismissal_date` or
`dismissal_type` is missing (absent/null, or otherwise falsy: id 0 or the
empty string) is rejected with a 400 validation error and leaves the
store completely unchanged. -/
theorem plan_validation_rejects (db : DB) (p : PlanPayload)
    (h : p.student_id = none ∨ p.student_id = some 0 ∨ p.dismissal_date = none ∨
         p.dismissal_date = some "" ∨ p.dismissal_type = none ∨ p.dismissal_type = some "") :
    save_dismissal_plan db p = (db, .error .badRequest) := by
  rcases p with ⟨sid, d, t, dest, nts, ov⟩
  simp only at h
  cases sid with
  | none => rfl
  | some a =>
    cases d with
    | none => rfl
    | some b =>
      cases t with
      | none => rfl
      | some c =>
        simp at h
        unfold save_dismissal_plan
        rcases h with h | h | h <;> simp [h]

/-- Witness for C10: a payload with no dismissal type is rejected and the
demo store is untouched. -/
theorem plan_validation_rejects_witness :
    save_dismissal_plan demoDB
      { student_id := some 1, dismissal_date := some "2026-02-17",
        dismissal_type := none, destination := some "", notes := some "",
        is_override := some 0 } = (demoDB, .error .badRequest) :=
  plan_validation_rejects demoDB _ (by simp)

end SchoolDismissal
